import Mathlib

/-!
Verification of FinGuard behaviors: the cost-collection scheduler
(`internal/collector/scheduler.go`), the WebSocket event hub
(`internal/stream/hub.go`), and the plugin manager (`internal/plugin`).

External effects (store calls, hub publishes) are recorded in explicit
outcome structures; store/collector results are supplied as oracle fields
so every code path of the Go functions is reachable in the model.
Times are modelled as integers (Unix seconds, UTC); real wall-clock
timestamps on events are omitted.
-/

namespace FinGuard

/-! ## Events (`pkg/event/event.go`)

`event.New(eventType, topic, source, payload)` marshals the payload and
fills the struct; for a `map[string]string` payload (the only payload the
scheduler passes) marshalling cannot fail, so the model is total.  The
`Timestamp` field is wall-clock time and is not modelled. -/

structure Event where
  type : String
  topic : String
  source : String
  payload : List (String × String)
deriving DecidableEq, Repr

def eventNew (eventType topic source : String)
    (payload : List (String × String)) : Event :=
  { type := eventType, topic := topic, source := source, payload := payload }

/-! ## Scheduler (`internal/collector/scheduler.go`) -/

structure CostRecord where
  providerId : String
  listCost : Int
deriving DecidableEq, Repr

structure CostSource where
  id : String
  name : String
  sourceType : String
  enabled : Bool
  lastCollectedAt : Option Int
deriving DecidableEq, Repr

structure TimeWindow where
  start : Int
  stop : Int
deriving DecidableEq, Repr

/-- Result of `collector.Collect(ctx, source, window)`: either a batch of
records or an error message. -/
inductive CollectResult where
  | ok (records : List CostRecord)
  | err (msg : String)
deriving DecidableEq, Repr

/-- Oracle for the scheduler's collaborators during one `collectSource`
call: whether `registry.Get(source.Type)` finds a collector, whether
`s.hub` is non-nil, the result of `Collect`, and whether
`store.InsertCostRecords` / `store.UpdateCostSourceCollectedAt` succeed
(the latter outcome is only logged by the code). -/
structure SchedulerEnv where
  hasCollector : Bool
  hubPresent : Bool
  collectResult : CollectResult
  insertOk : Bool
  updateOk : Bool
deriving DecidableEq, Repr

/-- Observable effects of one `collectSource` call: the window passed to
`Collect` (`none` when no collector was found), the batch passed to
`InsertCostRecords` if that call was made, the timestamp passed to
`UpdateCostSourceCollectedAt` if that call was made, and the events
handed to `hub.Publish`. -/
structure CollectOutcome where
  window : Option TimeWindow
  inserted : Option (List CostRecord)
  cursorUpdateCalledWith : Option Int
  published : List Event
deriving DecidableEq, Repr

/-- `Scheduler.publishEvent`: no-op when `s.hub == nil`, otherwise builds
an event on the dedicated topic `cost.collection` and publishes it. -/
def publishEvent (hubPresent : Bool) (eventType sourceName : String)
    (payload : List (String × String)) : List Event :=
  if hubPresent then [eventNew eventType "cost.collection" sourceName payload]
  else []

/-- `Scheduler.collectSource`, translated branch for branch from
`internal/collector/scheduler.go`. -/
def collectSource (now : Int) (env : SchedulerEnv) (source : CostSource) :
    CollectOutcome :=
  if env.hasCollector = false then
    { window := none, inserted := none, cursorUpdateCalledWith := none,
      published := [] }
  else
    let window : TimeWindow :=
      { start := match source.lastCollectedAt with
          | some t => t
          | none => now - 24 * 3600
        stop := now }
    match env.collectResult with
    | .err msg =>
        { window := some window, inserted := none,
          cursorUpdateCalledWith := none,
          published := publishEvent env.hubPresent "collection.failed"
            source.name [("sourceId", source.id), ("error", msg)] }
    | .ok records =>
        if 0 < records.length then
          if env.insertOk then
            { window := some window, inserted := some records,
              cursorUpdateCalledWith := some now,
              published := publishEvent env.hubPresent "collection.complete"
                source.name
                [("sourceId", source.id),
                 ("records", toString records.length)] }
          else
            { window := some window, inserted := some records,
              cursorUpdateCalledWith := none, published := [] }
        else
          { window := some window, inserted := none,
            cursorUpdateCalledWith := some now,
            published := publishEvent env.hubPresent "collection.complete"
              source.name
              [("sourceId", source.id),
               ("records", toString records.length)] }

/-- Concrete fixtures for witnesses and counterexamples. -/
def srcEx : CostSource :=
  { id := "cs-1", name := "aws-prod", sourceType := "aws", enabled := true,
    lastCollectedAt := some 1000 }

def recEx : CostRecord := { providerId := "i-0abc", listCost := 7 }

end FinGuard

namespace FinGuard

/-- C7: for every cost source handed to `collectSource` (whenever a
collector for its type exists, so that a window is computed at all), the
window passed to `Collect` has `End = now` and `Start = lastCollectedAt`
when the cursor is set, else `now - 24h`; in particular a source with a
nil cursor is collected over `[now - 24h, now)`. -/
theorem collectSource_window_spec (now : Int) (env : SchedulerEnv)
    (source : CostSource) (hc : env.hasCollector = true) :
    (collectSource now env source).window =
      some { start := source.lastCollectedAt.getD (now - 24 * 3600),
             stop := now } := by
  unfold collectSource
  rw [hc]
  simp only [Bool.true_eq_false, if_false]
  cases hr : env.collectResult with
  | err msg => cases source.lastCollectedAt <;> simp [Option.getD]
  | ok records =>
      cases source.lastCollectedAt <;>
        by_cases h0 : 0 < records.length <;>
          by_cases hi : env.insertOk <;>
            simp [h0, hi, Option.getD]

/-- Witness for `collectSource_window_spec` at a concrete source with a
nil cursor: the window is `[now - 86400, now)`. -/
theorem collectSource_window_spec_witness :
    (collectSource 100000
        { hasCollector := true, hubPresent := true,
          collectResult := .ok [], insertOk := true, updateOk := true }
        { srcEx with lastCollectedAt := none }).window =
      some { start := 100000 - 24 * 3600, stop := 100000 } := by
  have h := collectSource_window_spec 100000
    { hasCollector := true, hubPresent := true,
      collectResult := .ok [], insertOk := true, updateOk := true }
    { srcEx with lastCollectedAt := none } rfl
  simpa using h

/-- C2: on a failed attempt the cursor is never advanced.  If `Collect`
returns an error, `UpdateCostSourceCollectedAt` is not called, no records
are inserted, and (when the hub is non-nil) a `collection.failed` event
carrying the source id and the error message is published on
`cost.collection`; if `Collect` succeeds with a non-empty batch but the
store insert fails, `UpdateCostSourceCollectedAt` is not called either.
(`hasCollector = true` says a collector for the source type exists, so
`Collect` was actually attempted.) -/
theorem collectSource_failure_no_cursor (now : Int) (env : SchedulerEnv)
    (source : CostSource) (hc : env.hasCollector = true) :
    (∀ msg, env.collectResult = .err msg →
      (collectSource now env source).cursorUpdateCalledWith = none ∧
      (collectSource now env source).inserted = none ∧
      (env.hubPresent = true →
        (collectSource now env source).published =
          [eventNew "collection.failed" "cost.collection" source.name
            [("sourceId", source.id), ("error", msg)]])) ∧
    (∀ records, env.collectResult = .ok records → records ≠ [] →
      env.insertOk = false →
      (collectSource now env source).cursorUpdateCalledWith = none ∧
      (collectSource now env source).published = []) := by
  constructor
  · intro msg hm
    unfold collectSource
    rw [hc]
    simp only [Bool.true_eq_false, if_false, hm]
    refine ⟨by simp, by simp, fun hh => ?_⟩
    simp [publishEvent, hh]
  · intro records hr hne hins
    unfold collectSource
    rw [hc]
    have hlen : 0 < records.length := List.length_pos.mpr hne
    simp [hr, hlen, hins]

/-- Witness for `collectSource_failure_no_cursor`: a concrete collector
error leaves the cursor untouched and publishes the failed event, and a
concrete insert failure leaves the cursor untouched. -/
theorem collectSource_failure_no_cursor_witness :
    ((collectSource 2000
        { hasCollector := true, hubPresent := true,
          collectResult := .err "throttled", insertOk := true,
          updateOk := true } srcEx).cursorUpdateCalledWith = none ∧
      (collectSource 2000
        { hasCollector := true, hubPresent := true,
          collectResult := .err "throttled", insertOk := true,
          updateOk := true } srcEx).published =
        [eventNew "collection.failed" "cost.collection" "aws-prod"
          [("sourceId", "cs-1"), ("error", "throttled")]]) ∧
    (collectSource 2000
        { hasCollector := true, hubPresent := true,
          collectResult := .ok [recEx], insertOk := false,
          updateOk := true } srcEx).cursorUpdateCalledWith = none := by
  have h1 := (collectSource_failure_no_cursor 2000
    { hasCollector := true, hubPresent := true,
      collectResult := .err "throttled", insertOk := true,
      updateOk := true } srcEx rfl).1 "throttled" rfl
  have h2 := (collectSource_failure_no_cursor 2000
    { hasCollector := true, hubPresent := true,
      collectResult := .ok [recEx], insertOk := false,
      updateOk := true } srcEx rfl).2 [recEx] rfl (by decide) rfl
  exact ⟨⟨h1.1, h1.2.2 rfl⟩, h2.1⟩

/-- C1 counterexample: a source whose `Collect` succeeds returning one
record (N = 1 ≥ 0) but whose store insert fails.  `collectSource` neither
calls `UpdateCostSourceCollectedAt` nor publishes any event, so in
particular no `collection.complete` event carrying N is published —
refuting the claim that `Collect` success alone advances the cursor and
publishes the event. -/
theorem collectSource_C1_counterexample :
    (SchedulerEnv.mk true true (.ok [recEx]) false true).collectResult =
      .ok [recEx] ∧
    srcEx.enabled = true ∧
    (collectSource 2000 (SchedulerEnv.mk true true (.ok [recEx]) false true)
      srcEx).cursorUpdateCalledWith ≠ some 2000 ∧
    (collectSource 2000 (SchedulerEnv.mk true true (.ok [recEx]) false true)
      srcEx).published = [] := by
  refine ⟨rfl, rfl, ?_, ?_⟩ <;> decide

/-- C1 (amended): for every enabled cost source with a collector whose
`Collect` succeeds returning N ≥ 0 records, provided the store insert of
a non-empty batch succeeds, `collectSource` advances the cursor by
calling `UpdateCostSourceCollectedAt` with the current `now` (not the
previous value) and — when the hub is non-nil — publishes a
`collection.complete` event on the dedicated topic `cost.collection`
whose payload carries the record count N. -/
theorem collectSource_success_advances (now : Int) (env : SchedulerEnv)
    (source : CostSource) (records : List CostRecord)
    (hc : env.hasCollector = true)
    (hr : env.collectResult = .ok records)
    (hi : records = [] ∨ env.insertOk = true) :
    (collectSource now env source).cursorUpdateCalledWith = some now ∧
    (env.hubPresent = true →
      (collectSource now env source).published =
        [eventNew "collection.complete" "cost.collection" source.name
          [("sourceId", source.id),
           ("records", toString records.length)]]) := by
  unfold collectSource
  rw [hc]
  rcases hi with hi | hi
  · subst hi
    simp [hr, publishEvent, eventNew]
  · by_cases h0 : 0 < records.length <;>
      simp [hr, h0, hi, publishEvent, eventNew]

/-- Witness for `collectSource_success_advances`: a successful collection
of one record with a working store advances the cursor to `now = 2000`
and publishes `collection.complete` with count 1. -/
theorem collectSource_success_advances_witness :
    (collectSource 2000
      (SchedulerEnv.mk true true (.ok [recEx]) true true)
      srcEx).cursorUpdateCalledWith = some 2000 ∧
    (collectSource 2000
      (SchedulerEnv.mk true true (.ok [recEx]) true true)
      srcEx).published =
      [eventNew "collection.complete" "cost.collection" "aws-prod"
        [("sourceId", "cs-1"), ("records", "1")]] := by
  have h := collectSource_success_advances 2000
    (SchedulerEnv.mk true true (.ok [recEx]) true true) srcEx [recEx]
    rfl rfl (Or.inr rfl)
  exact ⟨h.1, h.2 rfl⟩

/-! ## Event hub (`internal/stream/hub.go`)

A client holds a topic filter (`topics map[string]struct\x7b\x7d`, empty
means all topics) and a buffered channel `send` of capacity 256.
`Publish` marshals the event once and offers it to every client whose
filter matches, with a non-blocking send (`select` with `default`:
drop when the buffer is full); `Broadcast` does the same without the
filter check.  The queue is modelled as the list of events buffered in
`send`; marshalling is total here (the payload model is an association
list, which always serialises). -/

abbrev ClientId := Nat

/-- The channel capacity `make(chan []byte, 256)`. -/
def sendCap : Nat := 256

structure ClientState where
  topics : List String
  queue : List Event
deriving DecidableEq, Repr

/-- `Client.subscribedTo`: empty filter means all topics, otherwise exact
membership. -/
def subscribedTo (c : ClientState) (topic : String) : Bool :=
  if c.topics.length = 0 then true
  else c.topics.contains topic

/-- The non-blocking send: enqueue when the buffer has room, otherwise
drop the event for this client (the `default` arm of the `select`). -/
def tryEnqueue (c : ClientState) (e : Event) : ClientState :=
  if c.queue.length < sendCap then { c with queue := c.queue ++ [e] }
  else c

structure HubState where
  clients : List (ClientId × ClientState)
deriving DecidableEq, Repr

/-- `Hub.Publish`: offer the event to every client passing the filter. -/
def hubPublish (h : HubState) (e : Event) : HubState :=
  { clients := h.clients.map fun p =>
      (p.1, if subscribedTo p.2 e.topic then tryEnqueue p.2 e else p.2) }

/-- `Hub.Broadcast`: offer the event to every client, filter ignored. -/
def hubBroadcast (h : HubState) (e : Event) : HubState :=
  { clients := h.clients.map fun p => (p.1, tryEnqueue p.2 e) }

/-- C3: for every live client with queue room, `Publish` enqueues the
event iff the client's filter accepts the topic — and the filter accepts
iff the filter is empty or the topic is a member of it (exact string
match) — while `Broadcast` enqueues unconditionally. -/
theorem hub_publish_filter (h : HubState) (e : Event) (id : ClientId)
    (c : ClientState) (hmem : (id, c) ∈ h.clients)
    (hroom : c.queue.length < sendCap) :
    (id, if subscribedTo c e.topic then { c with queue := c.queue ++ [e] }
         else c) ∈ (hubPublish h e).clients ∧
    (subscribedTo c e.topic = true ↔
      (c.topics = [] ∨ e.topic ∈ c.topics)) ∧
    (id, { c with queue := c.queue ++ [e] }) ∈ (hubBroadcast h e).clients := by
  refine ⟨?_, ?_, ?_⟩
  · have := List.mem_map_of_mem
      (fun p : ClientId × ClientState =>
        (p.1, if subscribedTo p.2 e.topic then tryEnqueue p.2 e else p.2))
      hmem
    simpa [hubPublish, tryEnqueue, hroom] using this
  · unfold subscribedTo
    by_cases h0 : c.topics.length = 0
    · simp [h0, List.length_eq_zero.mp h0]
    · have hne : c.topics ≠ [] := fun hnil => h0 (by simp [hnil])
      simp [h0, hne]
  · have := List.mem_map_of_mem
      (fun p : ClientId × ClientState => (p.1, tryEnqueue p.2 e)) hmem
    simpa [hubBroadcast, tryEnqueue, hroom] using this

/-- Witness for `hub_publish_filter`: a hub with one client filtered to
`cost.collection` receiving an event on that topic. -/
theorem hub_publish_filter_witness :
    (0, ClientState.mk ["cost.collection"]
        [eventNew "collection.complete" "cost.collection" "aws-prod" []]) ∈
      (hubPublish
        (HubState.mk [(0, ClientState.mk ["cost.collection"] [])])
        (eventNew "collection.complete" "cost.collection" "aws-prod" [])).clients := by
  have h := hub_publish_filter
    (HubState.mk [(0, ClientState.mk ["cost.collection"] [])])
    (eventNew "collection.complete" "cost.collection" "aws-prod" [])
    0 (ClientState.mk ["cost.collection"] [])
    (by simp) (by simp [sendCap])
  simpa [subscribedTo] using h.1

/-- C8: when a client's queue is full (256 buffered events), `Publish`
and `Broadcast` leave that client's entry unchanged — the event is
dropped for it alone, the call still completes (the functions are total,
returning a hub state, never an error) — and any other matching client
with queue room still receives the event. -/
theorem hub_publish_queue_full (h : HubState) (e : Event) (id : ClientId)
    (c : ClientState) (hmem : (id, c) ∈ h.clients)
    (hfull : c.queue.length = sendCap) :
    ((id, c) ∈ (hubPublish h e).clients ∧
      (id, c) ∈ (hubBroadcast h e).clients) ∧
    (∀ id2 c2, (id2, c2) ∈ h.clients → subscribedTo c2 e.topic = true →
      c2.queue.length < sendCap →
      (id2, { c2 with queue := c2.queue ++ [e] }) ∈ (hubPublish h e).clients) := by
  refine ⟨⟨?_, ?_⟩, ?_⟩
  · have := List.mem_map_of_mem
      (fun p : ClientId × ClientState =>
        (p.1, if subscribedTo p.2 e.topic then tryEnqueue p.2 e else p.2))
      hmem
    simpa [hubPublish, tryEnqueue, hfull] using this
  · have := List.mem_map_of_mem
      (fun p : ClientId × ClientState => (p.1, tryEnqueue p.2 e)) hmem
    simpa [hubBroadcast, tryEnqueue, hfull] using this
  · intro id2 c2 hmem2 hsub2 hroom2
    have := List.mem_map_of_mem
      (fun p : ClientId × ClientState =>
        (p.1, if subscribedTo p.2 e.topic then tryEnqueue p.2 e else p.2))
      hmem2
    simpa [hubPublish, tryEnqueue, hsub2, hroom2] using this

/-- A queue holding 256 copies of an event: a full `send` buffer. -/
def fullQueueEx : List Event :=
  List.replicate 256 (eventNew "e" "t" "s" [])

/-- Witness for `hub_publish_queue_full`: with one full-queue client and
one empty-filter client with room, publishing drops the event for the
full client and delivers it to the other. -/
theorem hub_publish_queue_full_witness :
    (0, ClientState.mk [] fullQueueEx) ∈
      (hubPublish
        (HubState.mk [(0, ClientState.mk [] fullQueueEx),
                      (1, ClientState.mk [] [])])
        (eventNew "x" "cost.collection" "s" [])).clients ∧
    (1, ClientState.mk [] [eventNew "x" "cost.collection" "s" []]) ∈
      (hubPublish
        (HubState.mk [(0, ClientState.mk [] fullQueueEx),
                      (1, ClientState.mk [] [])])
        (eventNew "x" "cost.collection" "s" [])).clients := by
  have h := hub_publish_queue_full
    (HubState.mk [(0, ClientState.mk [] fullQueueEx),
                  (1, ClientState.mk [] [])])
    (eventNew "x" "cost.collection" "s" [])
    0 (ClientState.mk [] fullQueueEx)
    (by simp)
    (by simp only [fullQueueEx, sendCap, List.length_replicate])
  refine ⟨h.1.1, ?_⟩
  have h2 := h.2 1 (ClientState.mk [] [])
    (by simp) (by simp [subscribedTo]) (by simp [sendCap])
  simpa using h2

/-! ### Unregister (`Hub.Unregister`)

`Unregister` takes the lock, records whether the client was in the map,
deletes it, and only if it existed cancels the client's context and runs
`close(c.send)` inside `c.closed.Do` (a `sync.Once`).  The model tracks,
per client id, how many times `cancel` ran, whether the `Once` was
consumed, and how many times `close` actually ran. -/

structure UClient where
  cancelCount : Nat
  onceUsed : Bool
  closeCount : Nat
deriving DecidableEq, Repr

structure UHub where
  members : List ClientId
  states : List (ClientId × UClient)
deriving DecidableEq, Repr

/-- `c.closed.Do(func() \x7b close(c.send) \x7d)`: runs the body only the
first time. -/
def onceDoClose (c : UClient) : UClient :=
  if c.onceUsed then c
  else { c with onceUsed := true, closeCount := c.closeCount + 1 }

def updateClient (ss : List (ClientId × UClient)) (id : ClientId)
    (f : UClient → UClient) : List (ClientId × UClient) :=
  ss.map fun p => if p.1 = id then (p.1, f p.2) else p

/-- `Hub.Unregister`: delete from the live set; if the client existed,
cancel its context and close its queue once, otherwise return silently. -/
def unregister (h : UHub) (id : ClientId) : UHub :=
  if id ∈ h.members then
    { members := h.members.erase id,
      states := updateClient h.states id fun c =>
        onceDoClose { c with cancelCount := c.cancelCount + 1 } }
  else h

/-- `Unregister` on a client absent from the live set returns the hub
unchanged (the early `return` after the existence check). -/
theorem unregister_not_mem (h : UHub) (id : ClientId)
    (habs : id ∉ h.members) : unregister h id = h := by
  unfold unregister
  simp [habs]

/-- C9: `Unregister` is idempotent and safe.  On an absent (never
registered or already removed) client it is a silent no-op; on a
registered client (the live set never holds duplicates) the live count
drops by exactly one, the client leaves the live set, a second
`Unregister` of the same client changes nothing, and the client's
cancellation and queue close each run exactly once.  Totality of
`unregister` is the model of "never panics". -/
theorem hub_unregister_idempotent (h : UHub) (id : ClientId)
    (hnodup : h.members.Nodup) :
    (id ∉ h.members → unregister h id = h) ∧
    (id ∈ h.members →
      (unregister h id).members.length + 1 = h.members.length ∧
      id ∉ (unregister h id).members ∧
      unregister (unregister h id) id = unregister h id ∧
      (∀ c, (id, c) ∈ h.states → c.onceUsed = false →
        (id, UClient.mk (c.cancelCount + 1) true (c.closeCount + 1)) ∈
          (unregister h id).states)) := by
  constructor
  · exact unregister_not_mem h id
  · intro hmem
    have hgone : id ∉ (unregister h id).members := by
      unfold unregister
      simp only [hmem, if_true]
      exact hnodup.not_mem_erase
    refine ⟨?_, hgone, ?_, ?_⟩
    · unfold unregister
      simp only [hmem, if_true]
      have hlen := List.length_erase_of_mem hmem
      have hpos : 0 < h.members.length := List.length_pos.mpr
        (List.ne_nil_of_mem hmem)
      omega
    · exact unregister_not_mem _ id hgone
    · intro c hcmem honce
      unfold unregister
      simp only [hmem, if_true]
      have := List.mem_map_of_mem
        (fun p : ClientId × UClient =>
          if p.1 = id then
            (p.1, onceDoClose { p.2 with cancelCount := p.2.cancelCount + 1 })
          else p) hcmem
      simpa [updateClient, onceDoClose, honce] using this

/-- Witness for `hub_unregister_idempotent`: a two-client hub from which
client 0 is unregistered twice. -/
theorem hub_unregister_idempotent_witness :
    (unregister (UHub.mk [0, 1] [(0, UClient.mk 0 false 0)]) 0).members.length
        + 1 = 2 ∧
    unregister (unregister (UHub.mk [0, 1] [(0, UClient.mk 0 false 0)]) 0) 0 =
      unregister (UHub.mk [0, 1] [(0, UClient.mk 0 false 0)]) 0 ∧
    (0, UClient.mk 1 true 1) ∈
      (unregister (UHub.mk [0, 1] [(0, UClient.mk 0 false 0)]) 0).states ∧
    unregister (UHub.mk [1] []) 0 = UHub.mk [1] [] := by
  have h := hub_unregister_idempotent
    (UHub.mk [0, 1] [(0, UClient.mk 0 false 0)]) 0 (by decide)
  have h2 := h.2 (by decide)
  have h3 := hub_unregister_idempotent (UHub.mk [1] []) 0 (by decide)
  exact ⟨h2.1, h2.2.2.1, h2.2.2.2 (UClient.mk 0 false 0) (by decide) rfl,
    h3.1 (by decide)⟩

/-! ## Plugin manager (`internal/plugin/manager.go`)

A plugin is abstracted by the results of the calls the manager makes on
it: `GetMetadata` (which can fail, modelled as `Option Metadata`) and
`Initialize` (modelled by `initOk`).  The registry `m.plugins` is a map
keyed by metadata name, modelled as an association list with unique
keys; `Register` only ever appends a fresh key. -/

structure PluginMeta where
  name : String
  version : String
deriving DecidableEq, Repr

structure PluginSpec where
  meta : Option PluginMeta
  initOk : Bool
deriving DecidableEq, Repr

/-- `Manager.Register`: fetch metadata (propagating its failure), reject
a duplicate name with an error and no state change, otherwise store the
registration under the metadata name.  The returned pair is (registry
after the call, error message if any). -/
def managerRegister (plugins : List (String × PluginSpec)) (p : PluginSpec) :
    List (String × PluginSpec) × Option String :=
  match p.meta with
  | none => (plugins, some "failed to get plugin metadata")
  | some meta =>
    if (plugins.lookup meta.name).isSome then
      (plugins, some ("plugin " ++ meta.name ++ " already registered"))
    else
      (plugins ++ [(meta.name, p)], none)

/-- Per-plugin observable outcome of `InitializeAll`: whether
`Initialize` was called, whether a bridge goroutine was started, and
whether a cancel handle was stored on the registration. -/
structure InitOutcome where
  name : String
  initCalled : Bool
  bridgeStarted : Bool
  cancelStored : Bool
deriving DecidableEq, Repr

/-- The loop body of `Manager.InitializeAll`: on `Initialize` error, log
and `continue` (no cancel stored, no bridge started); on success, store
a cancel for the derived context and start one bridge goroutine. -/
def initLoop : List (String × PluginSpec) → List InitOutcome
  | [] => []
  | (name, p) :: rest =>
    if p.initOk then
      { name := name, initCalled := true, bridgeStarted := true,
        cancelStored := true } :: initLoop rest
    else
      { name := name, initCalled := true, bridgeStarted := false,
        cancelStored := false } :: initLoop rest

/-- `Manager.InitializeAll`: run the loop over every registration and
`return nil` — the error result is `none` on every path. -/
def initializeAll (plugins : List (String × PluginSpec)) :
    List InitOutcome × Option String :=
  (initLoop plugins, none)

/-- C5: registering a plugin whose metadata name is already taken
returns an error and leaves the registry unchanged — in particular the
lookup for that name still yields the first registration — while a
fresh name is stored (appended under the metadata name) with no error. -/
theorem managerRegister_duplicate (plugins : List (String × PluginSpec))
    (p : PluginSpec) (meta : PluginMeta) (hm : p.meta = some meta) :
    ((plugins.lookup meta.name).isSome = true →
      (managerRegister plugins p).1 = plugins ∧
      (managerRegister plugins p).2.isSome = true ∧
      (managerRegister plugins p).1.lookup meta.name =
        plugins.lookup meta.name) ∧
    ((plugins.lookup meta.name).isSome = false →
      (managerRegister plugins p).1 = plugins ++ [(meta.name, p)] ∧
      (managerRegister plugins p).2 = none) := by
  unfold managerRegister
  rw [hm]
  constructor
  · intro hdup
    simp [hdup]
  · intro hfresh
    simp [hfresh]

/-- Witness for `managerRegister_duplicate`: registering `costbreakdown`
twice — the second call errors and the registry keeps exactly the first
registration; a fresh name is accepted. -/
theorem managerRegister_duplicate_witness :
    (managerRegister
      [("costbreakdown", PluginSpec.mk (some (PluginMeta.mk "costbreakdown" "1")) true)]
      (PluginSpec.mk (some (PluginMeta.mk "costbreakdown" "2")) true)).1 =
      [("costbreakdown", PluginSpec.mk (some (PluginMeta.mk "costbreakdown" "1")) true)] ∧
    (managerRegister
      [("costbreakdown", PluginSpec.mk (some (PluginMeta.mk "costbreakdown" "1")) true)]
      (PluginSpec.mk (some (PluginMeta.mk "costbreakdown" "2")) true)).2.isSome = true ∧
    (managerRegister []
      (PluginSpec.mk (some (PluginMeta.mk "costbreakdown" "1")) true)).2 = none := by
  have h1 := (managerRegister_duplicate
    [("costbreakdown", PluginSpec.mk (some (PluginMeta.mk "costbreakdown" "1")) true)]
    (PluginSpec.mk (some (PluginMeta.mk "costbreakdown" "2")) true)
    (PluginMeta.mk "costbreakdown" "2") rfl).1 (by decide)
  have h2 := (managerRegister_duplicate []
    (PluginSpec.mk (some (PluginMeta.mk "costbreakdown" "1")) true)
    (PluginMeta.mk "costbreakdown" "1") rfl).2 (by decide)
  exact ⟨h1.1, h1.2.1, h2.2⟩

theorem initLoop_length (plugins : List (String × PluginSpec)) :
    (initLoop plugins).length = plugins.length := by
  induction plugins with
  | nil => rfl
  | cons hd tl ih =>
    obtain ⟨n, p⟩ := hd
    cases hp : p.initOk <;> simp [initLoop, hp, ih]

theorem initLoop_initCalled (plugins : List (String × PluginSpec)) :
    ∀ o ∈ initLoop plugins, o.initCalled = true := by
  induction plugins with
  | nil => intro o ho; cases ho
  | cons hd tl ih =>
    obtain ⟨n, p⟩ := hd
    intro o ho
    cases hp : p.initOk <;> rw [initLoop, hp] at ho <;>
      simp only [Bool.false_eq_true, if_false, if_true, List.mem_cons] at ho <;>
        rcases ho with ho | ho
    · rw [ho]
    · exact ih o ho
    · rw [ho]
    · exact ih o ho

theorem initLoop_mem (plugins : List (String × PluginSpec)) (name : String)
    (p : PluginSpec) (hmem : (name, p) ∈ plugins) :
    InitOutcome.mk name true p.initOk p.initOk ∈ initLoop plugins := by
  induction plugins with
  | nil => cases hmem
  | cons hd tl ih =>
    obtain ⟨n', p'⟩ := hd
    rcases List.mem_cons.mp hmem with heq | htl
    · obtain ⟨h1, h2⟩ := Prod.mk.injEq .. ▸ heq
      subst h1; subst h2
      cases hp : p.initOk <;> simp [initLoop, hp]
    · cases hp : p'.initOk <;> simp [initLoop, hp, ih htl]

theorem initLoop_countP_zero (plugins : List (String × PluginSpec))
    (name : String) (hn : name ∉ plugins.map Prod.fst) :
    (initLoop plugins).countP
      (fun o => o.name == name && o.bridgeStarted) = 0 := by
  induction plugins with
  | nil => rfl
  | cons hd tl ih =>
    obtain ⟨n', p'⟩ := hd
    rw [List.map_cons, List.mem_cons] at hn
    push_neg at hn
    cases hp : p'.initOk <;>
      simp [initLoop, hp, List.countP_cons, Ne.symm hn.1, ih hn.2]

theorem initLoop_countP_one (plugins : List (String × PluginSpec))
    (name : String) (p : PluginSpec)
    (hnodup : (plugins.map Prod.fst).Nodup)
    (hmem : (name, p) ∈ plugins) (hok : p.initOk = true) :
    (initLoop plugins).countP
      (fun o => o.name == name && o.bridgeStarted) = 1 := by
  induction plugins with
  | nil => cases hmem
  | cons hd tl ih =>
    obtain ⟨n', p'⟩ := hd
    rw [List.map_cons, List.nodup_cons] at hnodup
    rcases List.mem_cons.mp hmem with heq | htl
    · obtain ⟨h1, h2⟩ := Prod.mk.injEq .. ▸ heq
      subst h1; subst h2
      rw [initLoop, hok]
      simp only [if_true, List.countP_cons]
      simp [initLoop_countP_zero tl name hnodup.1]
    · have hne : name ≠ n' := by
        intro h
        apply hnodup.1
        rw [← h]
        exact List.mem_map.mpr ⟨(name, p), htl, rfl⟩
      cases hp : p'.initOk <;>
        simp [initLoop, hp, List.countP_cons, Ne.symm hne,
          ih hnodup.2 htl]

/-- C6: a single plugin's `Initialize` failure does not abort
`InitializeAll` — `Initialize` is called on every registered plugin and
one outcome is produced per plugin; a failing plugin is skipped (no
bridge started, no cancel stored) while every plugin whose `Initialize`
succeeds has its bridge started and cancel stored; and, since the
registry's names are unique, a succeeding plugin gets exactly one
bridge task. -/
theorem initializeAll_fault_isolation (plugins : List (String × PluginSpec)) :
    (∀ o ∈ (initializeAll plugins).1, o.initCalled = true) ∧
    (initializeAll plugins).1.length = plugins.length ∧
    (∀ name p, (name, p) ∈ plugins →
      InitOutcome.mk name true p.initOk p.initOk ∈ (initializeAll plugins).1) ∧
    ((plugins.map Prod.fst).Nodup →
      ∀ name p, (name, p) ∈ plugins → p.initOk = true →
        (initializeAll plugins).1.countP
          (fun o => o.name == name && o.bridgeStarted) = 1) := by
  refine ⟨initLoop_initCalled plugins, initLoop_length plugins,
    fun name p hmem => initLoop_mem plugins name p hmem,
    fun hnodup name p hmem hok =>
      initLoop_countP_one plugins name p hnodup hmem hok⟩

/-- Witness for `initializeAll_fault_isolation`: plugin `a` fails to
initialize, plugin `b` succeeds — `a` is skipped, `b` gets exactly one
bridge with a stored cancel. -/
theorem initializeAll_fault_isolation_witness :
    InitOutcome.mk "a" true false false ∈
      (initializeAll [("a", PluginSpec.mk none false),
                      ("b", PluginSpec.mk none true)]).1 ∧
    InitOutcome.mk "b" true true true ∈
      (initializeAll [("a", PluginSpec.mk none false),
                      ("b", PluginSpec.mk none true)]).1 ∧
    (initializeAll [("a", PluginSpec.mk none false),
                    ("b", PluginSpec.mk none true)]).1.countP
      (fun o => o.name == "b" && o.bridgeStarted) = 1 := by
  have h := initializeAll_fault_isolation
    [("a", PluginSpec.mk none false), ("b", PluginSpec.mk none true)]
  exact ⟨h.2.2.1 "a" (PluginSpec.mk none false) (by decide),
    h.2.2.1 "b" (PluginSpec.mk none true) (by decide),
    h.2.2.2 (by decide) "b" (PluginSpec.mk none true) (by decide) rfl⟩

/-- C10: `InitializeAll` returns `nil` on every path — whatever the
registered plugins and the pattern of per-plugin `Initialize` failures,
the error component is `none`, so the caller's error branch in `main`
is unreachable. -/
theorem initializeAll_never_errors (plugins : List (String × PluginSpec)) :
    (initializeAll plugins).2 = none := rfl

/-! ### Plugin HTTP routes (`makePluginHandler`, `Manager.MountRoutes`)

`makePluginHandler(p, action)` builds an `http.HandlerFunc` that turns
the URL query into a params map (`params[k] = v[0]` whenever the value
list is non-empty), calls `p.Execute` with the declared `action`, and
writes the response.  A query is modelled as an association list from
key to value list (Go's `url.Values`), bytes as `List Nat`, and the
`Execute` call as an oracle function. -/

structure ExecuteRequest where
  action : String
  params : List (String × String)
deriving DecidableEq, Repr

structure PluginResponse where
  error : String
  statusCode : Nat
  contentType : String
  data : List Nat
deriving DecidableEq, Repr

/-- Result of `p.Execute`: a non-nil Go error, or a response struct. -/
inductive ExecOutcome where
  | fail (msg : String)
  | ok (resp : PluginResponse)
deriving DecidableEq, Repr

/-- Body written to the `http.ResponseWriter`: either the JSON-encoded
error object or the response's raw data bytes. -/
inductive Body where
  | jsonError (msg : String)
  | raw (bytes : List Nat)
deriving DecidableEq, Repr

structure HTTPResponse where
  status : Nat
  contentType : String
  body : Body
deriving DecidableEq, Repr

/-- The params loop: `for k, v := range r.URL.Query() \x7b if len(v) > 0
\x7b params[k] = v[0] \x7d \x7d`. -/
def buildParams (query : List (String × List String)) :
    List (String × String) :=
  query.filterMap fun kv =>
    match kv.2 with
    | [] => none
    | v :: _ => some (kv.1, v)

/-- The handler returned by `makePluginHandler`, as a function from the
query and the `Execute` oracle to the HTTP response written. -/
def makePluginHandler (execute : ExecuteRequest → ExecOutcome)
    (action : String) (query : List (String × List String)) : HTTPResponse :=
  match execute { action := action, params := buildParams query } with
  | .fail msg =>
      { status := 500, contentType := "application/json",
        body := .jsonError msg }
  | .ok resp =>
      if resp.error ≠ "" then
        { status := if resp.statusCode = 0 then 500 else resp.statusCode,
          contentType := "application/json",
          body := .jsonError resp.error }
      else
        { status := if resp.statusCode = 0 then 200 else resp.statusCode,
          contentType := if resp.contentType = "" then "application/json"
            else resp.contentType,
          body := .raw resp.data }

structure PluginRoute where
  method : String
  path : String
deriving DecidableEq, Repr

/-- A route as mounted by `Manager.MountRoutes`: the declared method and
path together with the `action` the handler was built with
(`action := route.Path`).  Only GET and POST are mounted. -/
structure MountedRoute where
  method : String
  path : String
  action : String
deriving DecidableEq, Repr

/-- The switch inside `MountRoutes`: mount GET and POST routes with
`makePluginHandler(pluginInstance, route.Path)`, skip other methods. -/
def mountRoutes (routes : List PluginRoute) : List MountedRoute :=
  routes.filterMap fun r =>
    match r.method with
    | "GET" => some { method := r.method, path := r.path, action := r.path }
    | "POST" => some { method := r.method, path := r.path, action := r.path }
    | _ => none

/-- C4: every mounted handler calls `Execute` with `action` equal to the
declared route path and params taking each query parameter's single
value; a non-nil `Execute` error yields HTTP 500 with a JSON error body;
a response with a non-empty error string yields its own status code (500
when zero) with a JSON error body; otherwise the data bytes are written
verbatim with the response's status (200 when zero) and content type
(`application/json` when empty). -/
theorem makePluginHandler_spec (execute : ExecuteRequest → ExecOutcome)
    (action : String) (query : List (String × List String)) :
    (∀ r rs, r ∈ rs → (r.method = "GET" ∨ r.method = "POST") →
      MountedRoute.mk r.method r.path r.path ∈ mountRoutes rs) ∧
    (∀ k v, (k, [v]) ∈ query → (k, v) ∈ buildParams query) ∧
    (∀ msg,
      execute (ExecuteRequest.mk action (buildParams query)) = .fail msg →
      makePluginHandler execute action query =
        HTTPResponse.mk 500 "application/json" (.jsonError msg)) ∧
    (∀ resp,
      execute (ExecuteRequest.mk action (buildParams query)) = .ok resp →
      resp.error ≠ "" →
      makePluginHandler execute action query =
        HTTPResponse.mk (if resp.statusCode = 0 then 500 else resp.statusCode)
          "application/json" (.jsonError resp.error)) ∧
    (∀ resp,
      execute (ExecuteRequest.mk action (buildParams query)) = .ok resp →
      resp.error = "" →
      makePluginHandler execute action query =
        HTTPResponse.mk (if resp.statusCode = 0 then 200 else resp.statusCode)
          (if resp.contentType = "" then "application/json"
            else resp.contentType)
          (.raw resp.data)) := by
  refine ⟨?_, ?_, ?_, ?_, ?_⟩
  · intro r rs hmem hmethod
    rcases hmethod with hm | hm <;>
      · apply List.mem_filterMap.mpr
        exact ⟨r, hmem, by rw [hm]; rfl⟩
  · intro k v hmem
    apply List.mem_filterMap.mpr
    exact ⟨(k, [v]), hmem, rfl⟩
  · intro msg hexec
    unfold makePluginHandler
    rw [hexec]
  · intro resp hexec herr
    unfold makePluginHandler
    rw [hexec]
    simp [herr]
  · intro resp hexec herr
    unfold makePluginHandler
    rw [hexec]
    simp [herr]

/-- Witness for `makePluginHandler_spec`: a GET route `/breakdown` is
mounted with `action = "/breakdown"`; a handler whose `Execute` succeeds
with zero status, empty content type and bytes `[123, 125]` writes those
bytes verbatim with status 200 and `application/json`; the single-valued
query parameter `window=7d` reaches the params map. -/
theorem makePluginHandler_spec_witness :
    MountedRoute.mk "GET" "/breakdown" "/breakdown" ∈
      mountRoutes [PluginRoute.mk "GET" "/breakdown"] ∧
    ("window", "7d") ∈ buildParams [("window", ["7d"])] ∧
    makePluginHandler
      (fun _ => .ok (PluginResponse.mk "" 0 "" [123, 125]))
      "/breakdown" [("window", ["7d"])] =
      HTTPResponse.mk 200 "application/json" (.raw [123, 125]) := by
  have h := makePluginHandler_spec
    (fun _ => .ok (PluginResponse.mk "" 0 "" [123, 125]))
    "/breakdown" [("window", ["7d"])]
  refine ⟨h.1 (PluginRoute.mk "GET" "/breakdown")
      [PluginRoute.mk "GET" "/breakdown"] (by decide) (Or.inl rfl),
    h.2.1 "window" "7d" (by decide), ?_⟩
  have h5 := h.2.2.2.2 (PluginResponse.mk "" 0 "" [123, 125]) rfl rfl
  simpa using h5

end FinGuard
